import Mathlib

/-!
Verification of the poll coordinator (`EtagCacher` in `src/api/eTagCacher.ts`).

The class owns a mutable table `cache : Record<string, {etag; poll; retry}>`
keyed by the composite string `"{tag}.{key}"`.  We embed the table as a
function `String → Option PollEntry`; the `etag` field is an `Option String`
because `setPoll` on a fresh key spreads `undefined` and thus produces an
object with no `etag` property.  `checkEtag` may call `setTimeout` with a
closure that dispatches `invalidateTags([tag])`; we return the list of
scheduled callbacks (their delay and the action they will dispatch) alongside
the updated table.
-/

namespace EtagCacher

/-- One row of the poll table: `{ etag; poll; retry }` in the source.
`etag` is `none` when the property is absent (fresh `setPoll` entry). -/
structure PollEntry where
  etag : Option String
  poll : Bool
  retry : Nat
deriving DecidableEq

/-- The poll table `this.cache`, keyed by the composite string. -/
abbrev Cache := String → Option PollEntry

/-- The table as built by the constructor: `this.cache = {}`. -/
def emptyCache : Cache := fun _ => none

/-- Assignment `this.cache[ck] = e`. -/
def updateCache (cache : Cache) (ck : String) (e : PollEntry) : Cache :=
  fun k => if k = ck then some e else cache k

/-- Constructor options; each field is optional in the source. -/
structure Options (K : Type) where
  maxRetries : Option Nat
  retryDelay : Option Nat
  isStatusPending : Option (K → Bool)

/-- `DEFAULT_OPTIONS.maxRetries`. -/
def defaultMaxRetries : Nat := 5

/-- `DEFAULT_OPTIONS.retryDelay`. -/
def defaultRetryDelay : Nat := 1000

/-- `this.options.maxRetries ?? DEFAULT_OPTIONS.maxRetries`. -/
def maxRetriesOf {K : Type} (opts : Options K) : Nat :=
  opts.maxRetries.getD defaultMaxRetries

/-- `this.options.retryDelay ?? DEFAULT_OPTIONS.retryDelay`. -/
def retryDelayOf {K : Type} (opts : Options K) : Nat :=
  opts.retryDelay.getD defaultRetryDelay

/-- The action dispatched by the scheduled callback:
`this.api.util.invalidateTags([this.tag])`. -/
inductive Action where
  | invalidateTags (tags : List String)
deriving DecidableEq

/-- A callback registered with `setTimeout`: its delay and the action its
body dispatches. -/
structure Scheduled where
  delay : Nat
  action : Action
deriving DecidableEq

/-- The composite key `` `${this.tag}.${key}` ``. -/
def cacheKey (tag key : String) : String := tag ++ "." ++ key

/-- The sub-condition `data && this.options.isStatusPending &&
data.some(this.options.isStatusPending)` of `checkEtag`: both values must be
present (an empty array is truthy in JS, so presence, not non-emptiness, is
what is tested) and some element must satisfy the predicate. -/
def hasPendingRecord {K : Type} (opts : Options K) (data : Option (List K)) : Bool :=
  match data, opts.isStatusPending with
  | some ds, some p => ds.any p
  | _, _ => false

/-- `checkEtag(dispatch, key, etag, data?)`.  Returns the updated table and
the list of callbacks handed to `setTimeout` during the call.  The source's
single `if` condition is `cache[ck] && cache[ck].poll && (etag === cache[ck].etag
|| (data && isStatusPending && data.some(isStatusPending))) && cache[ck].retry <
maxRetries`; when it holds the call schedules one invalidation after
`retryDelay` and increments `retry`, otherwise it overwrites the entry with
`{ etag, poll: false, retry: 0 }`. -/
def checkEtag {K : Type} (tag : String) (opts : Options K) (cache : Cache)
    (key m : String) (data : Option (List K)) : Cache × List Scheduled :=
  let ck := cacheKey tag key
  match cache ck with
  | some entry =>
      if entry.poll = true
          ∧ (entry.etag = some m ∨ hasPendingRecord opts data = true)
          ∧ entry.retry < maxRetriesOf opts then
        (updateCache cache ck { entry with retry := entry.retry + 1 },
         [{ delay := retryDelayOf opts, action := Action.invalidateTags [tag] }])
      else
        (updateCache cache ck { etag := some m, poll := false, retry := 0 }, [])
  | none => (updateCache cache ck { etag := some m, poll := false, retry := 0 }, [])

/-- `setPoll(key)`: `this.cache[ck] = { ...this.cache[ck], poll: true,
retry: 0 }`.  The spread of an absent entry contributes nothing, so a fresh
entry has no `etag` property; an existing entry keeps its `etag`. -/
def setPoll (tag : String) (cache : Cache) (key : String) : Cache :=
  let ck := cacheKey tag key
  updateCache cache ck
    { etag := (cache ck).bind PollEntry.etag, poll := true, retry := 0 }

/-- `stopPolling(key)`: if an entry exists set `poll = false`, otherwise do
nothing. -/
def stopPolling (tag : String) (cache : Cache) (key : String) : Cache :=
  let ck := cacheKey tag key
  match cache ck with
  | some entry => updateCache cache ck { entry with poll := false }
  | none => cache

/-- Return value of `getPollStatus`. -/
structure PollStatus where
  polling : Bool
  retries : Nat
deriving DecidableEq

/-- `getPollStatus(key)`: pure read of the entry. -/
def getPollStatus (tag : String) (cache : Cache) (key : String) : Option PollStatus :=
  (cache (cacheKey tag key)).map fun e => { polling := e.poll, retries := e.retry }

/-- Firing a callback that `checkEtag` registered with `setTimeout`: the
closure body is `() => dispatch(this.api.util.invalidateTags([this.tag]))`,
so it dispatches the recorded action and does not read or write the table. -/
def fireScheduled (cache : Cache) (s : Scheduled) : Cache × Action :=
  (cache, s.action)

/-- One coordinator operation, for reachability statements. -/
inductive Op (K : Type) where
  | setPollOp (key : String)
  | stopPollingOp (key : String)
  | getPollStatusOp (key : String)
  | checkEtagOp (key m : String) (data : Option (List K))
deriving DecidableEq

/-- The key an operation was invoked with. -/
def Op.key {K : Type} : Op K → String
  | .setPollOp k => k
  | .stopPollingOp k => k
  | .getPollStatusOp k => k
  | .checkEtagOp k _ _ => k

/-- Whether the operation is a `stopPolling` call. -/
def Op.isStopPolling {K : Type} : Op K → Bool
  | .stopPollingOp _ => true
  | _ => false

/-- Effect of one operation on the poll table (`getPollStatus` is a pure
read; `checkEtag` also schedules callbacks, dropped here). -/
def applyOp {K : Type} (tag : String) (opts : Options K) (cache : Cache) : Op K → Cache
  | .setPollOp k => setPoll tag cache k
  | .stopPollingOp k => stopPolling tag cache k
  | .getPollStatusOp _ => cache
  | .checkEtagOp k m d => (checkEtag tag opts cache k m d).1

/-- The table reached from the constructor's empty table by a call sequence. -/
def runOps {K : Type} (tag : String) (opts : Options K) (ops : List (Op K)) : Cache :=
  ops.foldl (applyOp tag opts) emptyCache

/-- Options with every field absent (all defaults apply). -/
def noOptions : Options Unit :=
  { maxRetries := none, retryDelay := none, isStatusPending := none }

/-- Every entry's retry count is bounded by the configured maximum. -/
def RetryBound {K : Type} (opts : Options K) (cache : Cache) : Prop :=
  ∀ ck e, cache ck = some e → e.retry ≤ maxRetriesOf opts

/-- Every entry that is not polling has a zero retry count. -/
def StoppedZero (cache : Cache) : Prop :=
  ∀ ck e, cache ck = some e → e.poll = false → e.retry = 0

theorem updateCache_self (cache : Cache) (ck : String) (e : PollEntry) :
    updateCache cache ck e ck = some e := by
  simp [updateCache]

theorem updateCache_other (cache : Cache) (ck k : String) (e : PollEntry)
    (h : k ≠ ck) : updateCache cache ck e k = cache k := by
  simp [updateCache, h]

theorem checkEtag_of_entry {K : Type} (tag : String) (opts : Options K)
    (cache : Cache) (key m : String) (data : Option (List K)) (entry : PollEntry)
    (h : cache (cacheKey tag key) = some entry) :
    checkEtag tag opts cache key m data =
      if entry.poll = true
          ∧ (entry.etag = some m ∨ hasPendingRecord opts data = true)
          ∧ entry.retry < maxRetriesOf opts then
        (updateCache cache (cacheKey tag key) { entry with retry := entry.retry + 1 },
         [{ delay := retryDelayOf opts, action := Action.invalidateTags [tag] }])
      else
        (updateCache cache (cacheKey tag key)
           { etag := some m, poll := false, retry := 0 }, []) := by
  simp only [checkEtag, h]

theorem checkEtag_of_none {K : Type} (tag : String) (opts : Options K)
    (cache : Cache) (key m : String) (data : Option (List K))
    (h : cache (cacheKey tag key) = none) :
    checkEtag tag opts cache key m data =
      (updateCache cache (cacheKey tag key)
         { etag := some m, poll := false, retry := 0 }, []) := by
  simp only [checkEtag, h]

/-- Claim C1: when the existing entry for the key has `poll = true`, a
`checkEtag` call schedules a refresh and increments the retry count iff
(the observed marker equals the stored one, or records are supplied together
with a configured pending predicate and some record satisfies it) and the
stored retry count is below the retry limit; otherwise the entry is
overwritten with `{ etag := marker, poll := false, retry := 0 }` and nothing
is scheduled.  An empty record list yields no pending record. -/
theorem checkEtag_polling_continuation_iff {K : Type} (tag : String)
    (opts : Options K) (cache : Cache) (key m : String) (data : Option (List K))
    (entry : PollEntry) (h : cache (cacheKey tag key) = some entry)
    (hp : entry.poll = true) :
    (((entry.etag = some m ∨ hasPendingRecord opts data = true)
        ∧ entry.retry < maxRetriesOf opts) →
      (checkEtag tag opts cache key m data).1 (cacheKey tag key)
          = some { entry with retry := entry.retry + 1 } ∧
      (checkEtag tag opts cache key m data).2 ≠ []) ∧
    (¬ ((entry.etag = some m ∨ hasPendingRecord opts data = true)
        ∧ entry.retry < maxRetriesOf opts) →
      (checkEtag tag opts cache key m data).1 (cacheKey tag key)
          = some { etag := some m, poll := false, retry := 0 } ∧
      (checkEtag tag opts cache key m data).2 = []) ∧
    hasPendingRecord opts (some ([] : List K)) = false := by
  refine ⟨fun hc => ?_, fun hc => ?_, ?_⟩
  · rw [checkEtag_of_entry tag opts cache key m data entry h, if_pos ⟨hp, hc⟩]
    exact ⟨updateCache_self .., by simp⟩
  · rw [checkEtag_of_entry tag opts cache key m data entry h,
      if_neg (fun hAll => hc hAll.2)]
    exact ⟨updateCache_self .., rfl⟩
  · obtain ⟨mr, rd, isp⟩ := opts
    cases isp <;> rfl

/-- Witness for C1 at a concrete polling entry with a matching marker. -/
theorem checkEtag_polling_continuation_iff_witness :
    (checkEtag "t" noOptions
        (updateCache emptyCache (cacheKey "t" "k")
          { etag := some "e", poll := true, retry := 0 }) "k" "e" none).1
        (cacheKey "t" "k")
      = some { etag := some "e", poll := true, retry := 1 } ∧
    (checkEtag "t" noOptions
        (updateCache emptyCache (cacheKey "t" "k")
          { etag := some "e", poll := true, retry := 0 }) "k" "e" none).2 ≠ [] :=
  (checkEtag_polling_continuation_iff "t" noOptions
      (updateCache emptyCache (cacheKey "t" "k")
        { etag := some "e", poll := true, retry := 0 }) "k" "e" none
      { etag := some "e", poll := true, retry := 0 } (by decide) rfl).1
    ⟨Or.inl rfl, by decide⟩

/-- Claim C4: when the continuation condition holds, `checkEtag` increments
the entry's retry count by one within the call, leaves its marker and poll
flag unchanged, and registers exactly one callback, to fire after the
configured retry delay, dispatching `invalidateTags` for the coordinator's
tag. -/
theorem checkEtag_continue_increments_and_schedules {K : Type} (tag : String)
    (opts : Options K) (cache : Cache) (key m : String) (data : Option (List K))
    (entry : PollEntry) (h : cache (cacheKey tag key) = some entry)
    (hc : entry.poll = true
          ∧ (entry.etag = some m ∨ hasPendingRecord opts data = true)
          ∧ entry.retry < maxRetriesOf opts) :
    (checkEtag tag opts cache key m data).1 (cacheKey tag key)
        = some { etag := entry.etag, poll := entry.poll, retry := entry.retry + 1 } ∧
    (checkEtag tag opts cache key m data).2
        = [{ delay := retryDelayOf opts, action := Action.invalidateTags [tag] }] := by
  rw [checkEtag_of_entry tag opts cache key m data entry h, if_pos hc]
  exact ⟨updateCache_self .., rfl⟩

/-- Witness for C4: a polling entry with retry 2 and an unchanged marker
moves to retry 3 and schedules one invalidation after the default delay. -/
theorem checkEtag_continue_increments_and_schedules_witness :
    (checkEtag "t" noOptions
        (updateCache emptyCache (cacheKey "t" "k")
          { etag := some "s", poll := true, retry := 2 }) "k" "s" none).1
        (cacheKey "t" "k")
      = some { etag := some "s", poll := true, retry := 3 } ∧
    (checkEtag "t" noOptions
        (updateCache emptyCache (cacheKey "t" "k")
          { etag := some "s", poll := true, retry := 2 }) "k" "s" none).2
      = [{ delay := 1000, action := Action.invalidateTags ["t"] }] :=
  checkEtag_continue_increments_and_schedules "t" noOptions
    (updateCache emptyCache (cacheKey "t" "k")
      { etag := some "s", poll := true, retry := 2 }) "k" "s" none
    { etag := some "s", poll := true, retry := 2 } (by decide)
    ⟨rfl, Or.inl rfl, by decide⟩

/-- Claim C5: `checkEtag` on a key with no entry, or whose entry is not
polling, writes `{ etag := marker, poll := false, retry := 0 }` and schedules
nothing. -/
theorem checkEtag_terminal_on_absent_or_stopped {K : Type} (tag : String)
    (opts : Options K) (cache : Cache) (key m : String) (data : Option (List K))
    (h : cache (cacheKey tag key) = none ∨
         ∃ e, cache (cacheKey tag key) = some e ∧ e.poll = false) :
    (checkEtag tag opts cache key m data).1 (cacheKey tag key)
        = some { etag := some m, poll := false, retry := 0 } ∧
    (checkEtag tag opts cache key m data).2 = [] := by
  rcases h with h | ⟨e, he, hpoll⟩
  · rw [checkEtag_of_none tag opts cache key m data h]
    exact ⟨updateCache_self .., rfl⟩
  · rw [checkEtag_of_entry tag opts cache key m data e he, if_neg]
    · exact ⟨updateCache_self .., rfl⟩
    · rintro ⟨hp', -⟩
      rw [hpoll] at hp'
      cases hp'

/-- Witness for C5 on an unseen key. -/
theorem checkEtag_terminal_on_absent_or_stopped_witness :
    (checkEtag "t" noOptions emptyCache "k" "e" none).1 (cacheKey "t" "k")
        = some { etag := some "e", poll := false, retry := 0 } ∧
    (checkEtag "t" noOptions emptyCache "k" "e" none).2 = [] :=
  checkEtag_terminal_on_absent_or_stopped "t" noOptions emptyCache "k" "e" none
    (Or.inl rfl)

/-- Claim C6: `stopPolling` clears the poll flag of an existing entry,
keeping its retry count and marker; on an absent key it leaves the whole
table untouched and in particular creates no entry. -/
theorem stopPolling_spec (tag : String) (cache : Cache) (key : String) :
    (cache (cacheKey tag key) = none → stopPolling tag cache key = cache) ∧
    (∀ e, cache (cacheKey tag key) = some e →
        stopPolling tag cache key (cacheKey tag key)
          = some { etag := e.etag, poll := false, retry := e.retry }) := by
  constructor
  · intro h
    simp [stopPolling, h]
  · intro e he
    simp only [stopPolling, he]
    exact updateCache_self ..

/-- Witness for C6: no-op on the empty table, flag cleared with retry kept
on a concrete entry. -/
theorem stopPolling_spec_witness :
    stopPolling "t" emptyCache "k" = emptyCache ∧
    stopPolling "t"
        (updateCache emptyCache (cacheKey "t" "k")
          { etag := some "e", poll := true, retry := 3 }) "k" (cacheKey "t" "k")
      = some { etag := some "e", poll := false, retry := 3 } :=
  ⟨(stopPolling_spec "t" emptyCache "k").1 rfl,
   (stopPolling_spec "t"
        (updateCache emptyCache (cacheKey "t" "k")
          { etag := some "e", poll := true, retry := 3 }) "k").2
     { etag := some "e", poll := true, retry := 3 } (by decide)⟩

/-- Claim C7: `setPoll` writes `poll = true, retry = 0`, keeping the stored
marker when the entry existed and leaving it absent when the entry is new. -/
theorem setPoll_spec (tag : String) (cache : Cache) (key : String) :
    (cache (cacheKey tag key) = none →
        setPoll tag cache key (cacheKey tag key)
          = some { etag := none, poll := true, retry := 0 }) ∧
    (∀ e, cache (cacheKey tag key) = some e →
        setPoll tag cache key (cacheKey tag key)
          = some { etag := e.etag, poll := true, retry := 0 }) := by
  constructor
  · intro h
    simp only [setPoll, h]
    exact updateCache_self ..
  · intro e he
    simp only [setPoll, he]
    exact updateCache_self ..

/-- Witness for C7: fresh entry has no marker; an existing marker survives
with retry reset. -/
theorem setPoll_spec_witness :
    setPoll "t" emptyCache "k" (cacheKey "t" "k")
        = some { etag := none, poll := true, retry := 0 } ∧
    setPoll "t"
        (updateCache emptyCache (cacheKey "t" "k")
          { etag := some "old", poll := false, retry := 3 }) "k" (cacheKey "t" "k")
      = some { etag := some "old", poll := true, retry := 0 } :=
  ⟨(setPoll_spec "t" emptyCache "k").1 rfl,
   (setPoll_spec "t"
        (updateCache emptyCache (cacheKey "t" "k")
          { etag := some "old", poll := false, retry := 3 }) "k").2
     { etag := some "old", poll := false, retry := 3 } (by decide)⟩


theorem updateCache_cases (cache : Cache) (ck k : String) (x e : PollEntry)
    (h : updateCache cache ck x k = some e) : e = x ∨ cache k = some e := by
  by_cases hk : k = ck
  · subst hk
    rw [updateCache_self] at h
    exact Or.inl (Option.some.inj h).symm
  · rw [updateCache_other _ _ _ _ hk] at h
    exact Or.inr h

theorem setPoll_cases (tag : String) (cache : Cache) (key ck : String)
    (e : PollEntry) (h : setPoll tag cache key ck = some e) :
    cache ck = some e ∨ (e.poll = true ∧ e.retry = 0) := by
  simp only [setPoll] at h
  rcases updateCache_cases _ _ _ _ _ h with h1 | h1
  · subst h1
    exact Or.inr ⟨rfl, rfl⟩
  · exact Or.inl h1

theorem stopPolling_cases (tag : String) (cache : Cache) (key ck : String)
    (e : PollEntry) (h : stopPolling tag cache key ck = some e) :
    cache ck = some e ∨
    ∃ entry, cache (cacheKey tag key) = some entry
      ∧ e = { entry with poll := false } := by
  rcases hcc : cache (cacheKey tag key) with _ | entry
  · simp only [stopPolling, hcc] at h
    exact Or.inl h
  · simp only [stopPolling, hcc] at h
    rcases updateCache_cases _ _ _ _ _ h with h1 | h1
    · exact Or.inr ⟨entry, rfl, h1⟩
    · exact Or.inl h1

theorem checkEtag_fst_cases {K : Type} (tag : String) (opts : Options K)
    (cache : Cache) (key m : String) (data : Option (List K)) (ck : String)
    (e : PollEntry) (h : (checkEtag tag opts cache key m data).1 ck = some e) :
    cache ck = some e
    ∨ e = { etag := some m, poll := false, retry := 0 }
    ∨ ∃ entry, cache (cacheKey tag key) = some entry ∧ entry.poll = true
        ∧ entry.retry < maxRetriesOf opts
        ∧ e = { entry with retry := entry.retry + 1 } := by
  rcases hcc : cache (cacheKey tag key) with _ | entry
  · rw [checkEtag_of_none tag opts cache key m data hcc] at h
    rcases updateCache_cases _ _ _ _ _ h with h1 | h1
    · exact Or.inr (Or.inl h1)
    · exact Or.inl h1
  · rw [checkEtag_of_entry tag opts cache key m data entry hcc] at h
    split_ifs at h with hcond
    · rcases updateCache_cases _ _ _ _ _ h with h1 | h1
      · exact Or.inr (Or.inr ⟨entry, rfl, hcond.1, hcond.2.2, h1⟩)
      · exact Or.inl h1
    · rcases updateCache_cases _ _ _ _ _ h with h1 | h1
      · exact Or.inr (Or.inl h1)
      · exact Or.inl h1

theorem retryBound_empty {K : Type} (opts : Options K) :
    RetryBound opts emptyCache := by
  intro ck e h
  simp [emptyCache] at h

theorem retryBound_applyOp {K : Type} (tag : String) (opts : Options K)
    (cache : Cache) (op : Op K) (h : RetryBound opts cache) :
    RetryBound opts (applyOp tag opts cache op) := by
  intro ck e he
  cases op with
  | setPollOp k =>
      rcases setPoll_cases tag cache k ck e he with h1 | ⟨-, h2⟩
      · exact h ck e h1
      · rw [h2]
        exact Nat.zero_le _
  | stopPollingOp k =>
      rcases stopPolling_cases tag cache k ck e he with h1 | ⟨entry, hcc, h2⟩
      · exact h ck e h1
      · subst h2
        exact h _ entry hcc
  | getPollStatusOp k => exact h ck e he
  | checkEtagOp k m d =>
      rcases checkEtag_fst_cases tag opts cache k m d ck e he
        with h1 | h1 | ⟨entry, hcc, -, hlt, h2⟩
      · exact h ck e h1
      · subst h1
        exact Nat.zero_le _
      · subst h2
        exact hlt

theorem retryBound_foldl {K : Type} (tag : String) (opts : Options K) :
    ∀ (ops : List (Op K)) (cache : Cache), RetryBound opts cache →
      RetryBound opts (List.foldl (applyOp tag opts) cache ops) := by
  intro ops
  induction ops with
  | nil => exact fun c hc => hc
  | cons op rest ih =>
      exact fun c hc => ih (applyOp tag opts c op) (retryBound_applyOp tag opts c op hc)

theorem stoppedZero_applyOp {K : Type} (tag : String) (opts : Options K)
    (cache : Cache) (op : Op K) (hop : op.isStopPolling = false)
    (h : StoppedZero cache) : StoppedZero (applyOp tag opts cache op) := by
  intro ck e he hpoll
  cases op with
  | setPollOp k =>
      rcases setPoll_cases tag cache k ck e he with h1 | ⟨h2, -⟩
      · exact h ck e h1 hpoll
      · rw [h2] at hpoll
        cases hpoll
  | stopPollingOp k => cases hop
  | getPollStatusOp k => exact h ck e he hpoll
  | checkEtagOp k m d =>
      rcases checkEtag_fst_cases tag opts cache k m d ck e he
        with h1 | h1 | ⟨entry, -, hpe, -, h2⟩
      · exact h ck e h1 hpoll
      · subst h1
        rfl
      · subst h2
        have hp2 : entry.poll = false := hpoll
        rw [hpe] at hp2
        cases hp2

theorem stoppedZero_foldl {K : Type} (tag : String) (opts : Options K) :
    ∀ (ops : List (Op K)), (∀ op ∈ ops, op.isStopPolling = false) →
      ∀ (cache : Cache), StoppedZero cache →
      StoppedZero (List.foldl (applyOp tag opts) cache ops) := by
  intro ops
  induction ops with
  | nil => exact fun _ c hc => hc
  | cons op rest ih =>
      intro hops c hc
      exact ih (fun o ho => hops o (List.mem_cons_of_mem _ ho)) _
        (stoppedZero_applyOp tag opts c op (hops op (List.mem_cons_self _ _)) hc)

/-- Claim C3: in every table reachable from the empty table by coordinator
operations, each entry's retry count is at most the configured maximum; and
when a polling entry whose marker is unchanged (or that has a pending
record) already sits at the maximum, `checkEtag` overwrites it with
`poll = false, retry = 0` and schedules nothing. -/
theorem runOps_retry_le_max {K : Type} (tag : String) (opts : Options K) :
    (∀ (ops : List (Op K)) (ck : String) (e : PollEntry),
        runOps tag opts ops ck = some e → e.retry ≤ maxRetriesOf opts) ∧
    (∀ (cache : Cache) (key m : String) (data : Option (List K))
        (entry : PollEntry),
        cache (cacheKey tag key) = some entry → entry.poll = true →
        (entry.etag = some m ∨ hasPendingRecord opts data = true) →
        maxRetriesOf opts ≤ entry.retry →
        (checkEtag tag opts cache key m data).1 (cacheKey tag key)
            = some { etag := some m, poll := false, retry := 0 } ∧
        (checkEtag tag opts cache key m data).2 = []) := by
  constructor
  · intro ops ck e he
    exact retryBound_foldl tag opts ops emptyCache (retryBound_empty opts) ck e he
  · intro cache key m data entry hcc hp hcond hge
    rw [checkEtag_of_entry tag opts cache key m data entry hcc, if_neg]
    · exact ⟨updateCache_self .., rfl⟩
    · rintro ⟨-, -, hlt⟩
      exact absurd hlt (Nat.not_lt.mpr hge)

/-- Witness for C3: a freshly started entry is within the default bound, and
a polling entry at the default maximum with an unchanged marker is reset
with nothing scheduled. -/
theorem runOps_retry_le_max_witness :
    PollEntry.retry { etag := none, poll := true, retry := 0 } ≤ maxRetriesOf noOptions ∧
    ((checkEtag "t" noOptions
        (updateCache emptyCache (cacheKey "t" "k")
          { etag := some "x", poll := true, retry := 5 }) "k" "x" none).1
        (cacheKey "t" "k")
      = some { etag := some "x", poll := false, retry := 0 } ∧
     (checkEtag "t" noOptions
        (updateCache emptyCache (cacheKey "t" "k")
          { etag := some "x", poll := true, retry := 5 }) "k" "x" none).2 = []) :=
  ⟨(runOps_retry_le_max "t" noOptions).1 [Op.setPollOp "k"] (cacheKey "t" "k")
      { etag := none, poll := true, retry := 0 } (by decide),
   (runOps_retry_le_max "t" noOptions).2
      (updateCache emptyCache (cacheKey "t" "k")
        { etag := some "x", poll := true, retry := 5 }) "k" "x" none
      { etag := some "x", poll := true, retry := 5 } (by decide) rfl (Or.inl rfl)
      (by decide)⟩

/-- Counterexample to claim C2 as stated: the trace start, observe (marker
changes), start again, observe (marker unchanged, so the retry count is
incremented), then an explicit `stopPolling`, reaches an entry with
`poll = false` and `retry = 1`, because `stopPolling` clears the flag
without resetting the count. -/
theorem stop_after_continue_cex :
    runOps "t" noOptions
        [Op.setPollOp "k", Op.checkEtagOp "k" "e" none, Op.setPollOp "k",
         Op.checkEtagOp "k" "e" none, Op.stopPollingOp "k"] (cacheKey "t" "k")
      = some { etag := some "e", poll := false, retry := 1 } := by
  decide

/-- Claim C2 (amended): in every state reachable from the empty table by a
sequence of `setPoll`, `getPollStatus` and `checkEtag` calls containing no
`stopPolling`, every entry with `poll = false` has `retry = 0`. -/
theorem runOps_no_stop_poll_false_retry_zero {K : Type} (tag : String)
    (opts : Options K) (ops : List (Op K))
    (hops : ∀ op ∈ ops, op.isStopPolling = false) :
    ∀ (ck : String) (e : PollEntry), runOps tag opts ops ck = some e →
      e.poll = false → e.retry = 0 := by
  intro ck e he hpoll
  refine stoppedZero_foldl tag opts ops hops emptyCache ?_ ck e he hpoll
  intro ck' e' h
  simp [emptyCache] at h

/-- Witness for amended C2: a single observation of an unseen key yields a
stopped entry with a zero retry count. -/
theorem runOps_no_stop_poll_false_retry_zero_witness :
    PollEntry.retry { etag := some "e", poll := false, retry := 0 } = 0 :=
  runOps_no_stop_poll_false_retry_zero "t" noOptions
    [Op.checkEtagOp "k" "e" none] (by decide) (cacheKey "t" "k")
    { etag := some "e", poll := false, retry := 0 } (by decide) rfl

/-- Claim C8: a callback that `checkEtag` registered with `setTimeout` fires
by dispatching `invalidateTags` for the coordinator's tag and nothing else:
whatever the table is at that moment, firing leaves it unchanged. -/
theorem fireScheduled_frame {K : Type} (tag : String) (opts : Options K)
    (cache : Cache) (key m : String) (data : Option (List K)) (s : Scheduled)
    (hs : s ∈ (checkEtag tag opts cache key m data).2) (t : Cache) :
    fireScheduled t s = (t, Action.invalidateTags [tag]) := by
  rcases hcc : cache (cacheKey tag key) with _ | entry
  · rw [checkEtag_of_none tag opts cache key m data hcc] at hs
    cases hs
  · rw [checkEtag_of_entry tag opts cache key m data entry hcc] at hs
    split_ifs at hs
    · rw [List.mem_singleton] at hs
      subst hs
      rfl
    · cases hs

/-- Witness for C8 at a concrete scheduled refresh, fired on an arbitrary
concrete table. -/
theorem fireScheduled_frame_witness :
    fireScheduled emptyCache
        { delay := 1000, action := Action.invalidateTags ["t"] }
      = (emptyCache, Action.invalidateTags ["t"]) :=
  fireScheduled_frame "t" noOptions
    (updateCache emptyCache (cacheKey "t" "k")
      { etag := some "e", poll := true, retry := 0 })
    "k" "e" none { delay := 1000, action := Action.invalidateTags ["t"] }
    (by decide) emptyCache

/-- Claim C9: each coordinator operation touches at most the composite key
built from the coordinator's tag and the operation's key; every other
composite key maps to the same entry (or absence) afterwards. -/
theorem applyOp_frame {K : Type} (tag : String) (opts : Options K)
    (cache : Cache) (op : Op K) (ck : String)
    (h : ck ≠ cacheKey tag op.key) :
    applyOp tag opts cache op ck = cache ck := by
  cases op with
  | setPollOp k =>
      exact updateCache_other _ _ _ _ h
  | stopPollingOp k =>
      rcases hcc : cache (cacheKey tag k) with _ | entry
      · simp only [applyOp, stopPolling, hcc]
      · simp only [applyOp, stopPolling, hcc]
        exact updateCache_other _ _ _ _ h
  | getPollStatusOp k => rfl
  | checkEtagOp k m d =>
      show (checkEtag tag opts cache k m d).1 ck = cache ck
      rcases hcc : cache (cacheKey tag k) with _ | entry
      · rw [checkEtag_of_none tag opts cache k m d hcc]
        exact updateCache_other _ _ _ _ h
      · rw [checkEtag_of_entry tag opts cache k m d entry hcc]
        split_ifs <;> exact updateCache_other _ _ _ _ h

/-- Witness for C9: starting a poll for one key leaves a different composite
key absent. -/
theorem applyOp_frame_witness :
    applyOp "t" noOptions emptyCache (Op.setPollOp "k") "t.x" = emptyCache "t.x" :=
  applyOp_frame "t" noOptions emptyCache (Op.setPollOp "k") "t.x" (by decide)

/-- Claim C10: `setPoll` is idempotent on the poll table: calling it twice
with the same key yields the same table as calling it once. -/
theorem setPoll_idem (tag : String) (cache : Cache) (key : String) :
    setPoll tag (setPoll tag cache key) key = setPoll tag cache key := by
  funext k
  by_cases hk : k = cacheKey tag key
  · subst hk
    simp [setPoll, updateCache_self]
  · simp only [setPoll]
    rw [updateCache_other _ _ _ _ hk, updateCache_other _ _ _ _ hk]

end EtagCacher

